import Mathlib

/-!
# Verification of the Anime-PAIS fuzzy title-matching engine

Shallow embedding of `matching_strategy_v2.py` and `matching_strategy_topn.py`:
normalization, tokenization, anchor extraction, character n-grams, title
expansion (the season-marker strip rules, including a small regex engine for
the exact patterns in the source), entry precomputation, candidate selection,
and the three scoring approaches in both best-single-match and top-N modes.

Python strings are modelled as Lean `String` (with `Option String` where the
value may be `None`/non-string), Python sets of strings as `Finset String`,
and Python floats as `ℚ` (all scores in the source are finite sums and
quotients of small integers, so ℚ tracks them faithfully for the order
comparisons made here).
-/

namespace AnimePais

/-- Python `\s` whitespace class (ASCII model). -/
def isSpaceCh (c : Char) : Bool :=
  c = ' ' || c = '\t' || c = '\n' || c = '\r' || c = '\x0b' || c = '\x0c'

/-- Python `\w` word-character class (ASCII model): alphanumeric or underscore. -/
def isWordCh (c : Char) : Bool :=
  c.isAlphanum || c = '_'

/-- Python `\d` digit class (ASCII model). -/
def isDigitCh (c : Char) : Bool :=
  c.isDigit

/-- Python `str.strip()`: drop leading and trailing whitespace. -/
def pyStrip (s : List Char) : List Char :=
  ((s.dropWhile isSpaceCh).reverse.dropWhile isSpaceCh).reverse

/-- Python `str.lower()` (ASCII model). -/
def pyLower (s : List Char) : List Char :=
  s.map Char.toLower

/-- `re.sub(r'[^\w\s]', ' ', ·)`: each non-word, non-space character becomes a space. -/
def punctToSpace (s : List Char) : List Char :=
  s.map fun c => if isWordCh c || isSpaceCh c then c else ' '

/-- `re.sub(r'\s+', ' ', ·)`: collapse every whitespace run to a single
space (`inRun` records whether the previous character was part of a
whitespace run). -/
def collapseWsGo (inRun : Bool) : List Char → List Char
  | [] => []
  | c :: cs =>
    if isSpaceCh c then
      if inRun then collapseWsGo true cs else ' ' :: collapseWsGo true cs
    else c :: collapseWsGo false cs

def collapseWs (s : List Char) : List Char := collapseWsGo false s

/-- `safe_normalize` from both source files: `None`/non-string or empty input
yields `""`; otherwise lowercase, strip, punctuation → space, collapse
whitespace, strip again. -/
def safe_normalize (title : Option String) : String :=
  match title with
  | none => ""
  | some t =>
    if t = "" then ""
    else String.mk (pyStrip (collapseWs (punctToSpace (pyStrip (pyLower t.toList)))))

/-- Python `str.split()` (no separator): split on whitespace runs, no empty
fields. -/
def pySplitGo (acc : List Char) : List Char → List String
  | [] => if acc.isEmpty then [] else [String.mk acc.reverse]
  | c :: cs =>
    if isSpaceCh c then
      if acc.isEmpty then pySplitGo [] cs
      else String.mk acc.reverse :: pySplitGo [] cs
    else pySplitGo (c :: acc) cs

def pySplit (s : String) : List String := pySplitGo [] s.toList

/-- Stop-word set of `matching_strategy_v2.py` (no `'by'`). -/
def common_words_v2 : List String :=
  ["the", "a", "an", "and", "or", "of", "is", "to", "in", "on", "at", "with", "for"]

/-- Stop-word set of `matching_strategy_topn.py` (includes `'by'`). -/
def common_words_topn : List String :=
  ["the", "a", "an", "and", "or", "of", "is", "to", "in", "on", "at", "with", "for", "by"]

/-- `extract_tokens`: normalize, split on whitespace, drop stop words and
tokens of length ≤ 1. Parameterized by the stop-word list (the two source
files disagree on it). -/
def extract_tokens (common : List String) (title : Option String) : List String :=
  let normalized := safe_normalize title
  if normalized = "" then []
  else (pySplit normalized).filter fun t => !common.contains t && decide (t.length > 1)

def extract_tokens_v2 (title : Option String) : List String :=
  extract_tokens common_words_v2 title

def extract_tokens_topn (title : Option String) : List String :=
  extract_tokens common_words_topn title

/-- `get_anchors`: first and last meaningful word; `([],[])` on no tokens,
`([t],[])` on a single token. -/
def get_anchors (common : List String) (title : Option String) :
    List String × List String :=
  match extract_tokens common title with
  | [] => ([], [])
  | [t] => ([t], [])
  | t :: u :: rest => ([t], [(u :: rest).getLast (List.cons_ne_nil u rest)])

/-- `ngrams_safe`: character 3-grams of the normalized, space-removed title. -/
def ngrams_safe (title : Option String) (n : Nat) : Finset String :=
  let text := (safe_normalize title).toList.filter fun c => c ≠ ' '
  if text.length < n then ∅
  else ((List.range (text.length - n + 1)).map
    fun i => String.mk ((text.drop i).take n)).toFinset

/-- `calc_overlap`: Jaccard similarity with empty-set protection (identical in
both source files). -/
def calc_overlap (s1 s2 : Finset String) : ℚ :=
  if s1 = ∅ ∨ s2 = ∅ then 0
  else if s1 ∪ s2 = ∅ then 0
  else ((s1 ∩ s2).card : ℚ) / ((s1 ∪ s2).card : ℚ)

/-! ## A small regex engine for the exact season-marker patterns of
`expand_title`.  The atoms cover everything those ten patterns use:
case-insensitive literal characters, `\s+`, `\s*`, `\d+`, `\b`, and `.*`.
Quantifiers are greedy with backtracking (longest first), matching CPython
`re` semantics for these patterns; `re.sub` scans left to right replacing
non-overlapping matches. -/

inductive RAtom where
  | lit : Char → RAtom
  | ws0 : RAtom
  | ws1 : RAtom
  | digits : RAtom
  | wb : RAtom
  | anystar : RAtom
deriving DecidableEq

def isWordOpt : Option Char → Bool
  | none => false
  | some c => isWordCh c

/-- `\b`: word boundary between the previous character and the head of `s`
(string edges count as non-word). -/
def atBoundary (prev : Option Char) (s : List Char) : Bool :=
  isWordOpt prev != isWordOpt s.head?

/-- A matcher continuation: given the previous character and the remaining
input, possibly return the suffix after a match of the rest of the pattern. -/
abbrev Matcher := Option Char → List Char → Option (List Char)

/-- Greedy quantifier back-off: try handing `k` consumed characters to the
continuation `cont`, backing off one at a time down to `lo` (the first `k`
characters of `s` are already known to lie in the quantifier's class). -/
def tryLens (cont : Matcher) (prev : Option Char) (lo : Nat) (s : List Char) :
    Nat → Option (List Char)
  | 0 => if 0 < lo then none else cont prev s
  | k + 1 =>
    if k + 1 < lo then none
    else
      match cont ((s.take (k + 1)).getLast?) (s.drop (k + 1)) with
      | some r => some r
      | none => tryLens cont prev lo s k

/-- Compile a pattern into a `Matcher` that matches it at the start of the
input (with the character just before the input available for `\b`),
returning the remaining suffix of the first match found in greedy
backtracking order — CPython `re` semantics for these patterns. -/
def reMatch : List RAtom → Matcher
  | [] => fun _ s => some s
  | .lit c :: ps => fun _ s =>
    match s with
    | [] => none
    | x :: xs => if x.toLower = c.toLower then reMatch ps (some x) xs else none
  | .wb :: ps => fun prev s =>
    if atBoundary prev s then reMatch ps prev s else none
  | .ws0 :: ps => fun prev s =>
    tryLens (reMatch ps) prev 0 s (s.takeWhile isSpaceCh).length
  | .ws1 :: ps => fun prev s =>
    tryLens (reMatch ps) prev 1 s (s.takeWhile isSpaceCh).length
  | .digits :: ps => fun prev s =>
    tryLens (reMatch ps) prev 1 s (s.takeWhile isDigitCh).length
  | .anystar :: ps => fun prev s =>
    tryLens (reMatch ps) prev 0 s (s.takeWhile (fun c => c ≠ '\n')).length

/-- Scan step of `re.sub(pattern, '', ·)`: delete each non-overlapping match,
left to right.  `fuel` starts at the input length; every step consumes at
least one input character (all the season patterns match at least one
character), so the fuel is never exhausted before the input. -/
def reSubGo (p : List RAtom) : Nat → Option Char → List Char → List Char
  | 0, _, s => s
  | _ + 1, _, [] => []
  | fuel + 1, prev, x :: xs =>
    match reMatch p prev (x :: xs) with
    | some rest =>
      if rest.length < (x :: xs).length then
        let consumed := (x :: xs).take ((x :: xs).length - rest.length)
        reSubGo p fuel (consumed.getLast?.elim prev some) rest
      else x :: reSubGo p fuel (some x) xs
    | none => x :: reSubGo p fuel (some x) xs

def reSub (p : List RAtom) (prev : Option Char) (s : List Char) : List Char :=
  reSubGo p s.length prev s

def lits (s : String) : List RAtom := s.toList.map RAtom.lit

/-- The ten `season_patterns` of `expand_title`, in source order. -/
def season_patterns : List (List RAtom) :=
  [ [RAtom.ws1] ++ lits "season" ++ [RAtom.ws1, RAtom.digits],
    [RAtom.ws1, RAtom.lit 's', RAtom.digits, RAtom.wb],
    [RAtom.ws1] ++ lits "part" ++ [RAtom.ws1, RAtom.digits],
    [RAtom.ws1, RAtom.digits] ++ lits "nd" ++ [RAtom.ws1] ++ lits "season",
    [RAtom.ws1, RAtom.digits] ++ lits "rd" ++ [RAtom.ws1] ++ lits "season",
    [RAtom.ws1, RAtom.digits] ++ lits "th" ++ [RAtom.ws1] ++ lits "season",
    [RAtom.lit ':', RAtom.ws0] ++ lits "the" ++ [RAtom.ws1] ++ lits "final",
    [RAtom.ws1] ++ lits "final" ++ [RAtom.ws1] ++ lits "season",
    [RAtom.lit ':', RAtom.ws0] ++ lits "ultra" ++ [RAtom.ws1] ++ lits "romantic",
    [RAtom.lit ':', RAtom.ws0] ++ lits "beyond" ++ [RAtom.ws1, RAtom.anystar] ]

/-- The sequential strip of `expand_title`: one working copy folded through
all ten patterns (later rules see the result of earlier strips), then
`.strip()`. -/
def strip_markers (title : String) : String :=
  String.mk (pyStrip (season_patterns.foldl (fun base p => reSub p none base) title.toList))

/-- `expand_title` (identical rules in both source files): original title
first, plus the stripped base iff non-empty, different from the original and
longer than 3 characters. -/
def expand_title (title : String) : List String :=
  if title = "" then [""]
  else
    let base := strip_markers title
    if base ≠ "" ∧ base ≠ title ∧ base.length > 3 then [title, base] else [title]

/-! ## Entries and precomputed signal bundles -/

/-- A catalog/query entry after (possible) precomputation: the `title` field
(`none` models a `None`/non-string value) plus the `_tokens`,
`_anchors_first`, `_anchors_last`, `_3grams`, `_expanded` signal fields the
scoring code reads with `entry.get(..., default)`. -/
structure Entry where
  title : Option String
  tokens : Finset String
  anchors_first : Finset String
  anchors_last : Finset String
  threeGrams : Finset String
  expanded : List String
deriving DecidableEq

instance : Inhabited Entry := ⟨⟨none, ∅, ∅, ∅, ∅, []⟩⟩

/-- `precompute_entry` of `matching_strategy_v2.py`: `None` on an empty
title, otherwise the entry with all five signal fields filled in (v2
stop-word set, with 3-grams). -/
def precompute_entry_v2 (title : String) : Option Entry :=
  if title = "" then none
  else
    let tokens := extract_tokens_v2 (some title)
    let fl := get_anchors common_words_v2 (some title)
    some { title := some title
           tokens := tokens.toFinset
           anchors_first := fl.1.toFinset
           anchors_last := fl.2.toFinset
           threeGrams := ngrams_safe (some title) 3
           expanded := expand_title title }

/-- `precompute_entry` of `matching_strategy_topn.py`: top-N stop-word set,
no `_3grams` key (so reads of it fall back to the empty-set default). -/
def precompute_entry_topn (title : String) : Option Entry :=
  if title = "" then none
  else
    let tokens := extract_tokens_topn (some title)
    let fl := get_anchors common_words_topn (some title)
    some { title := some title
           tokens := tokens.toFinset
           anchors_first := fl.1.toFinset
           anchors_last := fl.2.toFinset
           threeGrams := ∅
           expanded := expand_title title }

/-- An entry that never went through `precompute_entry` (e.g. a query whose
title is empty/`None`): every `entry.get` of a signal key returns its
default — empty sets and `[entry.get('title','')]` for `_expanded`. -/
def unprecomputed_query (t : Option String) : Entry :=
  { title := t
    tokens := ∅
    anchors_first := ∅
    anchors_last := ∅
    threeGrams := ∅
    expanded := [t.getD ""] }

/-! ## Candidate selection (the per-query pool construction in both `main`s) -/

/-- `MAX_CANDIDATES` of `matching_strategy_topn.py`. -/
def MAX_CANDIDATES : Nat := 100

/-- Deduplication via `{id(c): c for c in candidates}`: keeps the first
occurrence of each entry identity, in order.  Entries are represented by
identity here (their index in the loaded list). -/
def dedup_first_go (seen : List Nat) : List Nat → List Nat
  | [] => []
  | x :: xs =>
    if seen.contains x then dedup_first_go seen xs
    else x :: dedup_first_go (x :: seen) xs

def dedup_first (l : List Nat) : List Nat := dedup_first_go [] l

/-- Candidate selection of `matching_strategy_v2.py` `main`: anchor-index
buckets (deduplicated) when the query has first anchors, otherwise the
**whole** `db_entries` list. -/
def select_candidates_v2 (first : Finset String) (anchor_index : String → List Nat)
    (db_entries : List Nat) : List Nat :=
  if first ≠ ∅ then dedup_first ((first.sort (· ≤ ·)).flatMap anchor_index)
  else db_entries

/-- Candidate selection of `matching_strategy_topn.py` `main`: anchor-index
buckets (deduplicated) when the query has first anchors, otherwise
`db_entries[:MAX_CANDIDATES]`. -/
def select_candidates_topn (first : Finset String) (anchor_index : String → List Nat)
    (db_entries : List Nat) : List Nat :=
  if first ≠ ∅ then dedup_first ((first.sort (· ≤ ·)).flatMap anchor_index)
  else db_entries.take MAX_CANDIDATES

/-! ## Approach 1 — token overlap (best-single-match, v2) -/

/-- The candidate loop of `approach_1_token`: result tuple is
`(best, best_pass, best_score)`; exact token-set equality short-circuits. -/
def a1_loop (csvT : Finset String) (best : Option Entry) (best_score : ℚ)
    (best_pass : Nat) : List Entry → Option Entry × Nat × ℚ
  | [] => (best, best_pass, best_score)
  | e :: rest =>
    if e.tokens = ∅ then a1_loop csvT best best_score best_pass rest
    else
      let overlap := calc_overlap csvT e.tokens
      if overlap = 1 ∧ csvT = e.tokens then (some e, 1, 1)
      else if overlap ≥ 9/10 ∧ best_pass < 2 then a1_loop csvT (some e) overlap 2 rest
      else if overlap ≥ 7/10 ∧ best_pass < 3 then a1_loop csvT (some e) overlap 3 rest
      else if overlap ≥ 1/2 ∧ best_pass < 4 then a1_loop csvT (some e) overlap 4 rest
      else a1_loop csvT best best_score best_pass rest

def approach_1_token (csv_entry : Entry) (candidate_entries : List Entry) :
    Option Entry × Nat × ℚ :=
  if csv_entry.tokens = ∅ then (none, 0, 0)
  else a1_loop csv_entry.tokens none 0 0 candidate_entries

/-! ## Approach 2 — weighted anchor score (best-single-match, v2) -/

/-- `min(len(csv_title), len(db_title)) / max(len(csv_title), 1) if csv_title
else 0`. -/
def pyLenFrac (qt dt : Option String) : ℚ :=
  if qt = none ∨ qt = some "" then 0
  else (min (qt.getD "").length (dt.getD "").length : ℚ) / (max (qt.getD "").length 1 : ℚ)

/-- The weighted total of `approach_2_anchor_score` (v2 weight profile:
0.4/0.2 anchors, 0.3 token, 0.2 n-gram, 0.1 length). -/
def a2_total_v2 (q e : Entry) (first_match last_match : Prop)
    [Decidable first_match] [Decidable last_match] : ℚ :=
  ((if first_match then 2/5 else 0) + (if last_match then 1/5 else 0)) +
    calc_overlap q.tokens e.tokens * (3/10) +
    calc_overlap q.threeGrams e.threeGrams * (1/5) +
    pyLenFrac q.title e.title * (1/10)

/-- The candidate loop of `approach_2_anchor_score`. -/
def a2_loop (q : Entry) (best : Option Entry) (best_score : ℚ) (best_pass : Nat) :
    List Entry → Option Entry × Nat × ℚ
  | [] => (best, best_pass, best_score)
  | e :: rest =>
    let first_match := q.anchors_first ∩ e.anchors_first ≠ ∅
    let last_match := q.anchors_last ∩ e.anchors_last ≠ ∅
    if ¬first_match ∧ ¬last_match then a2_loop q best best_score best_pass rest
    else
      let total := a2_total_v2 q e first_match last_match
      if total ≥ 9/10 ∧ best_pass ≤ 1 then a2_loop q (some e) total 1 rest
      else if total ≥ 3/4 ∧ best_pass ≤ 2 then a2_loop q (some e) total 2 rest
      else if total ≥ 3/5 ∧ best_pass ≤ 3 then a2_loop q (some e) total 3 rest
      else if total ≥ 9/20 ∧ best_pass ≤ 4 then a2_loop q (some e) total 4 rest
      else a2_loop q best best_score best_pass rest

def approach_2_anchor_score (csv_entry : Entry) (candidate_entries : List Entry) :
    Option Entry × Nat × ℚ :=
  if csv_entry.anchors_first = ∅ ∧ csv_entry.anchors_last = ∅ then (none, 0, 0)
  else a2_loop csv_entry none 0 0 candidate_entries

/-! ## Approach 3 — expanded-title matching (best-single-match, v2)

The Python `return db_entry, 1, 1.0` inside the triply nested loop is
modelled with `Except`: `.error e` is the early return (exact variant
token-set equality), `.ok` carries the running `(best, best_score,
best_pass)` state. -/

/-- State `(best, best_score, best_pass)` of the approach-3 loops. -/
abbrev A3St := Option Entry × ℚ × Nat

/-- State update for one non-equal variant pairing `(cvT, dvT)` against
candidate `db_entry`: the subset/superset promotion (guarded by
`best_pass < 2`) followed by the overlap-threshold `if`/`elif`. -/
def a3_pair_step (db_entry : Entry) (cvT dvT : Finset String) (st : A3St) : A3St :=
  let st1 :=
    if (cvT ⊆ dvT ∨ dvT ⊆ cvT) ∧ st.2.2 < 2 then
      (some db_entry, calc_overlap cvT dvT, 2)
    else st
  let overlap := calc_overlap cvT dvT
  if overlap ≥ 7/10 ∧ st1.2.2 < 3 then (some db_entry, overlap, 3)
  else if overlap ≥ 1/2 ∧ st1.2.2 < 4 then (some db_entry, overlap, 4)
  else st1

/-- Body of the innermost loop (`for db_var in db_expanded`), for one
query-variant token set `cvT` against candidate `db_entry`. -/
def a3_db_vars (db_entry : Entry) (cvT : Finset String) (st : A3St) :
    List String → Except Entry A3St
  | [] => .ok st
  | db_var :: rest =>
    let dvT := (extract_tokens_v2 (some db_var)).toFinset
    if dvT = ∅ then a3_db_vars db_entry cvT st rest
    else if cvT = dvT then .error db_entry
    else a3_db_vars db_entry cvT (a3_pair_step db_entry cvT dvT st) rest

/-- Middle loop: `for csv_var in csv_expanded`. -/
def a3_csv_vars (db_entry : Entry) (db_expanded : List String) (st : A3St) :
    List String → Except Entry A3St
  | [] => .ok st
  | csv_var :: rest =>
    let cvT := (extract_tokens_v2 (some csv_var)).toFinset
    if cvT = ∅ then a3_csv_vars db_entry db_expanded st rest
    else
      match a3_db_vars db_entry cvT st db_expanded with
      | .error e => .error e
      | .ok st' => a3_csv_vars db_entry db_expanded st' rest

/-- Outer loop: `for db_entry in candidate_entries`. -/
def a3_cands (csv_expanded : List String) (st : A3St) :
    List Entry → Except Entry A3St
  | [] => .ok st
  | db_entry :: rest =>
    match a3_csv_vars db_entry db_entry.expanded st csv_expanded with
    | .error e => .error e
    | .ok st' => a3_cands csv_expanded st' rest

def approach_3_expanded (csv_entry : Entry) (candidate_entries : List Entry) :
    Option Entry × Nat × ℚ :=
  match a3_cands csv_entry.expanded (none, 0, 0) candidate_entries with
  | .error e => (some e, 1, 1)
  | .ok (best, best_score, best_pass) => (best, best_pass, best_score)

/-! ## Top-N approaches (`matching_strategy_topn.py`)

`scored.sort(key=lambda x: x[1], reverse=True)` is a stable descending sort
by score; `List.mergeSort` is stable, so sorting with `b.score ≤ a.score`
reproduces it exactly. -/

def sort_scored (scored : List (Entry × ℚ × String)) : List (Entry × ℚ × String) :=
  scored.mergeSort fun a b => decide (b.2.1 ≤ a.2.1)

/-- Loop body of `approach_1_token_topn` for one candidate: token overlap
with a `> 0.3` minimum threshold. -/
def a1_topn_score (csv_entry e : Entry) : Option (Entry × ℚ × String) :=
  if e.tokens = ∅ then none
  else
    let overlap := calc_overlap csv_entry.tokens e.tokens
    if overlap > 3/10 then some (e, overlap, "token") else none

/-- `approach_1_token_topn`: every candidate with token overlap > 0.3,
sorted descending, top `n`. -/
def approach_1_token_topn (csv_entry : Entry) (candidate_entries : List Entry)
    (n : Nat) : List (Entry × ℚ × String) :=
  if csv_entry.tokens = ∅ then []
  else (sort_scored (candidate_entries.filterMap (a1_topn_score csv_entry))).take n

/-- The weighted total of `approach_2_anchor_topn` (top-N weight profile:
0.4/0.2 anchors, 0.4 token, 0.2 length, no n-gram term). -/
def a2_total_topn (q e : Entry) (first_match last_match : Prop)
    [Decidable first_match] [Decidable last_match] : ℚ :=
  ((if first_match then 2/5 else 0) + (if last_match then 1/5 else 0)) +
    calc_overlap q.tokens e.tokens * (2/5) +
    pyLenFrac q.title e.title * (1/5)

/-- Loop body of `approach_2_anchor_topn` for one candidate: anchor hard
gate, then weighted score with a `> 0.4` minimum threshold. -/
def a2_topn_score (csv_entry e : Entry) : Option (Entry × ℚ × String) :=
  if ¬(csv_entry.anchors_first ∩ e.anchors_first ≠ ∅) ∧
      ¬(csv_entry.anchors_last ∩ e.anchors_last ≠ ∅) then none
  else
    let total := a2_total_topn csv_entry e (csv_entry.anchors_first ∩ e.anchors_first ≠ ∅)
      (csv_entry.anchors_last ∩ e.anchors_last ≠ ∅)
    if total > 2/5 then some (e, total, "anchor") else none

/-- `approach_2_anchor_topn`: anchor hard gate, weighted score > 0.4,
sorted descending, top `n`. -/
def approach_2_anchor_topn (csv_entry : Entry) (candidate_entries : List Entry)
    (n : Nat) : List (Entry × ℚ × String) :=
  (sort_scored (candidate_entries.filterMap (a2_topn_score csv_entry))).take n

/-- The per-candidate maximum variant-pair overlap of
`approach_3_expand_topn` (top-N stop-word set). -/
def a3topn_best_overlap (csv_expanded db_expanded : List String) : ℚ :=
  csv_expanded.foldl
    (fun acc csv_var =>
      let cvT := (extract_tokens_topn (some csv_var)).toFinset
      if cvT = ∅ then acc
      else db_expanded.foldl
        (fun acc2 db_var =>
          let dvT := (extract_tokens_topn (some db_var)).toFinset
          if dvT = ∅ then acc2
          else max acc2 (calc_overlap cvT dvT))
        acc)
    0

/-- Loop body of `approach_3_expand_topn` for one candidate: best
variant-pair overlap with a `> 0.5` minimum threshold. -/
def a3_topn_score (csv_entry e : Entry) : Option (Entry × ℚ × String) :=
  let best_overlap := a3topn_best_overlap csv_entry.expanded e.expanded
  if best_overlap > 1/2 then some (e, best_overlap, "expand") else none

/-- `approach_3_expand_topn`: best variant-pair overlap > 0.5, sorted
descending, top `n`. -/
def approach_3_expand_topn (csv_entry : Entry) (candidate_entries : List Entry)
    (n : Nat) : List (Entry × ℚ × String) :=
  (sort_scored (candidate_entries.filterMap (a3_topn_score csv_entry))).take n

/-! ## Store-threaded variants of the three v2 approaches

Python entries are mutable dicts on a heap; to state the frame property
("scoring reads but never writes precomputed state") the heap is made
explicit: a `Store` is the list of loaded entries, an entry reference is its
index, every read goes through the store, and every statement of the loop
bodies threads the store — so the final store records exactly the writes the
code performs (none). -/

abbrev Store := List Entry

/-- Dereference an entry (reads in the source never fail on pipeline data;
out-of-range reads yield the default entry). -/
def readE (store : Store) (i : Nat) : Entry := (store[i]?).getD default

def a1_loop_st (csvT : Finset String) (best : Option Nat) (best_score : ℚ)
    (best_pass : Nat) (store : Store) : List Nat → (Option Nat × Nat × ℚ) × Store
  | [] => ((best, best_pass, best_score), store)
  | i :: rest =>
    let e := readE store i
    if e.tokens = ∅ then a1_loop_st csvT best best_score best_pass store rest
    else
      let overlap := calc_overlap csvT e.tokens
      if overlap = 1 ∧ csvT = e.tokens then ((some i, 1, 1), store)
      else if overlap ≥ 9/10 ∧ best_pass < 2 then a1_loop_st csvT (some i) overlap 2 store rest
      else if overlap ≥ 7/10 ∧ best_pass < 3 then a1_loop_st csvT (some i) overlap 3 store rest
      else if overlap ≥ 1/2 ∧ best_pass < 4 then a1_loop_st csvT (some i) overlap 4 store rest
      else a1_loop_st csvT best best_score best_pass store rest

def approach_1_token_st (qi : Nat) (cands : List Nat) (store : Store) :
    (Option Nat × Nat × ℚ) × Store :=
  if (readE store qi).tokens = ∅ then ((none, 0, 0), store)
  else a1_loop_st (readE store qi).tokens none 0 0 store cands

def a2_loop_st (q : Entry) (best : Option Nat) (best_score : ℚ) (best_pass : Nat)
    (store : Store) : List Nat → (Option Nat × Nat × ℚ) × Store
  | [] => ((best, best_pass, best_score), store)
  | i :: rest =>
    let e := readE store i
    if ¬(q.anchors_first ∩ e.anchors_first ≠ ∅) ∧
        ¬(q.anchors_last ∩ e.anchors_last ≠ ∅) then
      a2_loop_st q best best_score best_pass store rest
    else
      let total := a2_total_v2 q e (q.anchors_first ∩ e.anchors_first ≠ ∅)
        (q.anchors_last ∩ e.anchors_last ≠ ∅)
      if total ≥ 9/10 ∧ best_pass ≤ 1 then a2_loop_st q (some i) total 1 store rest
      else if total ≥ 3/4 ∧ best_pass ≤ 2 then a2_loop_st q (some i) total 2 store rest
      else if total ≥ 3/5 ∧ best_pass ≤ 3 then a2_loop_st q (some i) total 3 store rest
      else if total ≥ 9/20 ∧ best_pass ≤ 4 then a2_loop_st q (some i) total 4 store rest
      else a2_loop_st q best best_score best_pass store rest

def approach_2_anchor_score_st (qi : Nat) (cands : List Nat) (store : Store) :
    (Option Nat × Nat × ℚ) × Store :=
  if (readE store qi).anchors_first = ∅ ∧ (readE store qi).anchors_last = ∅ then
    ((none, 0, 0), store)
  else a2_loop_st (readE store qi) none 0 0 store cands

/-- Approach-3 state over entry references. -/
abbrev A3StI := Option Nat × ℚ × Nat

def a3_pair_step_i (di : Nat) (cvT dvT : Finset String) (st : A3StI) : A3StI :=
  let st1 :=
    if (cvT ⊆ dvT ∨ dvT ⊆ cvT) ∧ st.2.2 < 2 then (some di, calc_overlap cvT dvT, 2)
    else st
  let overlap := calc_overlap cvT dvT
  if overlap ≥ 7/10 ∧ st1.2.2 < 3 then (some di, overlap, 3)
  else if overlap ≥ 1/2 ∧ st1.2.2 < 4 then (some di, overlap, 4)
  else st1

def a3_db_vars_st (di : Nat) (cvT : Finset String) (st : A3StI) (store : Store) :
    List String → Except Nat A3StI × Store
  | [] => (.ok st, store)
  | db_var :: rest =>
    let dvT := (extract_tokens_v2 (some db_var)).toFinset
    if dvT = ∅ then a3_db_vars_st di cvT st store rest
    else if cvT = dvT then (.error di, store)
    else a3_db_vars_st di cvT (a3_pair_step_i di cvT dvT st) store rest

def a3_csv_vars_st (di : Nat) (db_expanded : List String) (st : A3StI) (store : Store) :
    List String → Except Nat A3StI × Store
  | [] => (.ok st, store)
  | csv_var :: rest =>
    let cvT := (extract_tokens_v2 (some csv_var)).toFinset
    if cvT = ∅ then a3_csv_vars_st di db_expanded st store rest
    else
      match a3_db_vars_st di cvT st store db_expanded with
      | (.error e, store') => (.error e, store')
      | (.ok st', store') => a3_csv_vars_st di db_expanded st' store' rest

def a3_cands_st (csv_expanded : List String) (st : A3StI) (store : Store) :
    List Nat → Except Nat A3StI × Store
  | [] => (.ok st, store)
  | di :: rest =>
    match a3_csv_vars_st di (readE store di).expanded st store csv_expanded with
    | (.error e, store') => (.error e, store')
    | (.ok st', store') => a3_cands_st csv_expanded st' store' rest

def approach_3_expanded_st (qi : Nat) (cands : List Nat) (store : Store) :
    (Option Nat × Nat × ℚ) × Store :=
  match a3_cands_st (readE store qi).expanded (none, 0, 0) store cands with
  | (.error e, store') => ((some e, 1, 1), store')
  | (.ok (best, best_score, best_pass), store') => ((best, best_pass, best_score), store')

/-! ## Concrete entries used by the counterexamples and witnesses -/

def entry_ab_cd : Entry := (precompute_entry_v2 "ab cd").getD default

def q_aabbcc : Entry := (precompute_entry_v2 "aa bb cc").getD default

def cand_abcd : Entry := (precompute_entry_v2 "aa bb cc dd").getD default

def cand_aabb : Entry := (precompute_entry_v2 "aa bb").getD default

def q_seven : Entry := (precompute_entry_v2 "aa bb cc dd ee ff gg").getD default

def cand_sevenx : Entry := (precompute_entry_v2 "aa bb cc dd ee ff xx").getD default

def q_five : Entry := (precompute_entry_v2 "aa bb cc dd ee").getD default

def entry_xy_zw : Entry := (precompute_entry_v2 "xy zw").getD default


/-! ## Basic bounds -/

lemma calc_overlap_nonneg (s1 s2 : Finset String) : 0 ≤ calc_overlap s1 s2 := by
  unfold calc_overlap
  split_ifs with h1 h2
  · exact le_refl 0
  · exact le_refl 0
  · exact div_nonneg (by positivity) (by positivity)

lemma calc_overlap_le_one (s1 s2 : Finset String) : calc_overlap s1 s2 ≤ 1 := by
  unfold calc_overlap
  split_ifs with h1 h2
  · norm_num
  · norm_num
  · rw [div_le_one]
    · exact_mod_cast Finset.card_le_card (Finset.inter_subset_union)
    · exact_mod_cast Finset.card_pos.mpr (Finset.nonempty_iff_ne_empty.mpr h2)

lemma pyLenFrac_nonneg (qt dt : Option String) : 0 ≤ pyLenFrac qt dt := by
  unfold pyLenFrac
  split_ifs with h
  · exact le_refl 0
  · exact div_nonneg (by positivity) (by positivity)

lemma pyLenFrac_le_one (qt dt : Option String) : pyLenFrac qt dt ≤ 1 := by
  unfold pyLenFrac
  split_ifs with h
  · norm_num
  · rw [div_le_one]
    · exact_mod_cast le_trans (Nat.min_le_left _ _) (Nat.le_max_left _ _)
    · exact_mod_cast lt_of_lt_of_le Nat.one_pos (Nat.le_max_right _ _)

lemma a2_total_v2_nonneg (q e : Entry) (f l : Prop) [Decidable f] [Decidable l] :
    0 ≤ a2_total_v2 q e f l := by
  unfold a2_total_v2
  have h1 : (0:ℚ) ≤ (if f then 2/5 else 0) + (if l then 1/5 else 0) := by
    split_ifs <;> norm_num
  have h2 := calc_overlap_nonneg q.tokens e.tokens
  have h3 := calc_overlap_nonneg q.threeGrams e.threeGrams
  have h4 := pyLenFrac_nonneg q.title e.title
  nlinarith

lemma a2_total_v2_le (q e : Entry) (f l : Prop) [Decidable f] [Decidable l] :
    a2_total_v2 q e f l ≤ 6/5 := by
  unfold a2_total_v2
  have h1 : (if f then (2:ℚ)/5 else 0) + (if l then 1/5 else 0) ≤ 3/5 := by
    split_ifs <;> norm_num
  have h2 := calc_overlap_le_one q.tokens e.tokens
  have h2' := calc_overlap_nonneg q.tokens e.tokens
  have h3 := calc_overlap_le_one q.threeGrams e.threeGrams
  have h3' := calc_overlap_nonneg q.threeGrams e.threeGrams
  have h4 := pyLenFrac_le_one q.title e.title
  have h4' := pyLenFrac_nonneg q.title e.title
  nlinarith

lemma a2_total_topn_nonneg (q e : Entry) (f l : Prop) [Decidable f] [Decidable l] :
    0 ≤ a2_total_topn q e f l := by
  unfold a2_total_topn
  have h1 : (0:ℚ) ≤ (if f then 2/5 else 0) + (if l then 1/5 else 0) := by
    split_ifs <;> norm_num
  have h2 := calc_overlap_nonneg q.tokens e.tokens
  have h4 := pyLenFrac_nonneg q.title e.title
  nlinarith

lemma a2_total_topn_le (q e : Entry) (f l : Prop) [Decidable f] [Decidable l] :
    a2_total_topn q e f l ≤ 6/5 := by
  unfold a2_total_topn
  have h1 : (if f then (2:ℚ)/5 else 0) + (if l then 1/5 else 0) ≤ 3/5 := by
    split_ifs <;> norm_num
  have h2 := calc_overlap_le_one q.tokens e.tokens
  have h2' := calc_overlap_nonneg q.tokens e.tokens
  have h4 := pyLenFrac_le_one q.title e.title
  have h4' := pyLenFrac_nonneg q.title e.title
  nlinarith

/-! ## Score-range invariants of the best-single-match loops -/

lemma a1_loop_score_range (csvT : Finset String) (cands : List Entry)
    (b : Option Entry) (s : ℚ) (p : Nat) (h0 : 0 ≤ s) (h1 : s ≤ 1) :
    0 ≤ (a1_loop csvT b s p cands).2.2 ∧ (a1_loop csvT b s p cands).2.2 ≤ 1 := by
  induction cands generalizing b s p with
  | nil => exact ⟨h0, h1⟩
  | cons e rest ih =>
    simp only [a1_loop]
    split_ifs with he heq h9 h7 h5
    · exact ih b s p h0 h1
    · norm_num
    · exact ih _ _ _ (calc_overlap_nonneg _ _) (calc_overlap_le_one _ _)
    · exact ih _ _ _ (calc_overlap_nonneg _ _) (calc_overlap_le_one _ _)
    · exact ih _ _ _ (calc_overlap_nonneg _ _) (calc_overlap_le_one _ _)
    · exact ih b s p h0 h1

lemma a2_loop_score_range (q : Entry) (cands : List Entry)
    (b : Option Entry) (s : ℚ) (p : Nat) (h0 : 0 ≤ s) (h1 : s ≤ 6/5) :
    0 ≤ (a2_loop q b s p cands).2.2 ∧ (a2_loop q b s p cands).2.2 ≤ 6/5 := by
  induction cands generalizing b s p with
  | nil => exact ⟨h0, h1⟩
  | cons e rest ih =>
    simp only [a2_loop]
    split_ifs with hg t9 t75 t6 t45
    · exact ih b s p h0 h1
    · exact ih _ _ _ (a2_total_v2_nonneg _ _ _ _) (a2_total_v2_le _ _ _ _)
    · exact ih _ _ _ (a2_total_v2_nonneg _ _ _ _) (a2_total_v2_le _ _ _ _)
    · exact ih _ _ _ (a2_total_v2_nonneg _ _ _ _) (a2_total_v2_le _ _ _ _)
    · exact ih _ _ _ (a2_total_v2_nonneg _ _ _ _) (a2_total_v2_le _ _ _ _)
    · exact ih b s p h0 h1

/-- Invariant carried through the approach-3 loops: the running score stays
in `[0,1]`, and whenever the running pass is `2` (the subset/superset
promotion) the score is below `1/2` — the overlap-threshold branches that run
in the same pairing immediately re-record any subset pair with Jaccard ≥ 0.5
at pass 3 or 4. -/
def A3Inv (st : A3St) : Prop :=
  0 ≤ st.2.1 ∧ st.2.1 ≤ 1 ∧ (st.2.2 = 2 → st.2.1 < 1/2)

lemma a3_pair_step_inv (db_entry : Entry) (cvT dvT : Finset String) (st : A3St)
    (h : A3Inv st) : A3Inv (a3_pair_step db_entry cvT dvT st) := by
  have hov0 := calc_overlap_nonneg cvT dvT
  have hov1 := calc_overlap_le_one cvT dvT
  simp only [a3_pair_step]
  split_ifs with hsub h7 h5 h7' h5'
  · exact ⟨hov0, hov1, fun hc => by simp at hc⟩
  · exact ⟨hov0, hov1, fun hc => by simp at hc⟩
  · refine ⟨hov0, hov1, fun _ => ?_⟩
    by_contra hge
    push_neg at hge
    exact h5 ⟨hge, by simp⟩
  · exact ⟨hov0, hov1, fun hc => by simp at hc⟩
  · exact ⟨hov0, hov1, fun hc => by simp at hc⟩
  · exact h

lemma a3_db_vars_inv (db_entry : Entry) (cvT : Finset String) (vars : List String)
    (st : A3St) (h : A3Inv st) (st' : A3St)
    (hres : a3_db_vars db_entry cvT st vars = .ok st') : A3Inv st' := by
  induction vars generalizing st with
  | nil =>
    simp only [a3_db_vars] at hres
    cases hres
    exact h
  | cons v rest ih =>
    simp only [a3_db_vars] at hres
    split_ifs at hres with hdv heq
    · exact ih st h hres
    · exact ih _ (a3_pair_step_inv _ _ _ _ h) hres

lemma a3_csv_vars_inv (db_entry : Entry) (db_expanded : List String)
    (vars : List String) (st : A3St) (h : A3Inv st) (st' : A3St)
    (hres : a3_csv_vars db_entry db_expanded st vars = .ok st') : A3Inv st' := by
  induction vars generalizing st with
  | nil =>
    simp only [a3_csv_vars] at hres
    cases hres
    exact h
  | cons v rest ih =>
    simp only [a3_csv_vars] at hres
    split_ifs at hres with hcv
    · exact ih st h hres
    · cases hdb : a3_db_vars db_entry ((extract_tokens_v2 (some v)).toFinset) st db_expanded with
      | error e => rw [hdb] at hres; cases hres
      | ok stm =>
        rw [hdb] at hres
        exact ih stm (a3_db_vars_inv _ _ _ _ h _ hdb) hres

lemma a3_cands_inv (csv_expanded : List String) (cands : List Entry)
    (st : A3St) (h : A3Inv st) (st' : A3St)
    (hres : a3_cands csv_expanded st cands = .ok st') : A3Inv st' := by
  induction cands generalizing st with
  | nil =>
    simp only [a3_cands] at hres
    cases hres
    exact h
  | cons e rest ih =>
    simp only [a3_cands] at hres
    cases hcv : a3_csv_vars e e.expanded st csv_expanded with
    | error x => rw [hcv] at hres; cases hres
    | ok stm =>
      rw [hcv] at hres
      exact ih stm (a3_csv_vars_inv _ _ _ _ h _ hcv) hres

/-- In `a1_loop` with current pass 4, no threshold branch can fire any more:
only the exact token-set short-circuit can change the result. -/
lemma a1_loop_pass4_stable (csvT : Finset String) (cands : List Entry)
    (b : Option Entry) (s : ℚ) :
    a1_loop csvT b s 4 cands = (b, 4, s) ∨
      ∃ e ∈ cands, csvT = e.tokens ∧ a1_loop csvT b s 4 cands = (some e, 1, 1) := by
  induction cands with
  | nil => exact Or.inl rfl
  | cons e rest ih =>
    simp only [a1_loop]
    split_ifs with he heq h9 h7 h5
    · rcases ih with h | ⟨x, hx, hxt, hxe⟩
      · exact Or.inl h
      · exact Or.inr ⟨x, List.mem_cons_of_mem _ hx, hxt, hxe⟩
    · exact Or.inr ⟨e, List.mem_cons_self _ _, heq.2, rfl⟩
    · exact absurd h9.2 (by omega)
    · exact absurd h7.2 (by omega)
    · exact absurd h5.2 (by omega)
    · rcases ih with h | ⟨x, hx, hxt, hxe⟩
      · exact Or.inl h
      · exact Or.inr ⟨x, List.mem_cons_of_mem _ hx, hxt, hxe⟩

/-- The best candidate tracked by `a2_loop` is either the initial one or an
entry from the pool that passed the anchor hard gate. -/
lemma a2_loop_best_spec (q : Entry) (cands : List Entry)
    (b : Option Entry) (s : ℚ) (p : Nat) :
    (a2_loop q b s p cands).1 = b ∨
      ∃ e ∈ cands, (a2_loop q b s p cands).1 = some e ∧
        (q.anchors_first ∩ e.anchors_first ≠ ∅ ∨ q.anchors_last ∩ e.anchors_last ≠ ∅) := by
  induction cands generalizing b s p with
  | nil => exact Or.inl rfl
  | cons e rest ih =>
    simp only [a2_loop]
    have lift : ∀ (b' : Option Entry) (s' : ℚ) (p' : Nat),
        (a2_loop q b' s' p' rest).1 = some e →
        (q.anchors_first ∩ e.anchors_first ≠ ∅ ∨ q.anchors_last ∩ e.anchors_last ≠ ∅) →
        (a2_loop q b' s' p' rest).1 = b ∨
          ∃ x ∈ e :: rest, (a2_loop q b' s' p' rest).1 = some x ∧
            (q.anchors_first ∩ x.anchors_first ≠ ∅ ∨ q.anchors_last ∩ x.anchors_last ≠ ∅) :=
      fun b' s' p' hb hg => Or.inr ⟨e, List.mem_cons_self _ _, hb, hg⟩
    split_ifs with hg t9 t75 t6 t45
    · rcases ih b s p with h | ⟨x, hx, hxe, hxg⟩
      · exact Or.inl h
      · exact Or.inr ⟨x, List.mem_cons_of_mem _ hx, hxe, hxg⟩
    all_goals try {
      rcases not_and_or.mp hg with hf | hl
      all_goals {
        rcases ih (some e) (a2_total_v2 q e (q.anchors_first ∩ e.anchors_first ≠ ∅)
            (q.anchors_last ∩ e.anchors_last ≠ ∅)) _ with h | ⟨x, hx, hxe, hxg⟩
        · refine Or.inr ⟨e, List.mem_cons_self _ _, h, ?_⟩
          first
          | exact Or.inl (not_not.mp hf)
          | exact Or.inr (not_not.mp hl)
        · exact Or.inr ⟨x, List.mem_cons_of_mem _ hx, hxe, hxg⟩
      }
    }
    · rcases ih b s p with h | ⟨x, hx, hxe, hxg⟩
      · exact Or.inl h
      · exact Or.inr ⟨x, List.mem_cons_of_mem _ hx, hxe, hxg⟩

/-! ## Top-N helper lemmas -/

lemma mem_of_mem_topn {scored : List (Entry × ℚ × String)} {n : Nat}
    {r : Entry × ℚ × String} (h : r ∈ (sort_scored scored).take n) : r ∈ scored := by
  have := List.mem_of_mem_take h
  rwa [sort_scored, List.mem_mergeSort] at this

lemma topn_length_le (scored : List (Entry × ℚ × String)) (n : Nat) :
    ((sort_scored scored).take n).length ≤ n :=
  List.length_take_le n _

lemma topn_sorted (scored : List (Entry × ℚ × String)) (n : Nat) :
    ((sort_scored scored).take n).Pairwise (fun a b => b.2.1 ≤ a.2.1) := by
  have hs : (sort_scored scored).Pairwise
      (fun a b => (fun x y : Entry × ℚ × String => decide (y.2.1 ≤ x.2.1)) a b = true) := by
    apply List.sorted_mergeSort
    · intro a b c hab hbc
      simp only [decide_eq_true_eq] at *
      exact le_trans hbc hab
    · intro a b
      simp only [Bool.or_eq_true, decide_eq_true_eq]
      exact le_total b.2.1 a.2.1
  have hs' : (sort_scored scored).Pairwise (fun a b => b.2.1 ≤ a.2.1) :=
    hs.imp (by intro a b hab; simpa using hab)
  exact hs'.sublist (List.take_sublist n _)

lemma a3topn_best_overlap_range (csv_expanded db_expanded : List String) :
    0 ≤ a3topn_best_overlap csv_expanded db_expanded ∧
      a3topn_best_overlap csv_expanded db_expanded ≤ 1 := by
  unfold a3topn_best_overlap
  have main : ∀ (l : List String) (acc : ℚ), 0 ≤ acc → acc ≤ 1 →
      0 ≤ l.foldl (fun acc2 csv_var =>
        let cvT := (extract_tokens_topn (some csv_var)).toFinset
        if cvT = ∅ then acc2
        else db_expanded.foldl (fun acc3 db_var =>
          let dvT := (extract_tokens_topn (some db_var)).toFinset
          if dvT = ∅ then acc3 else max acc3 (calc_overlap cvT dvT)) acc2) acc ∧
      l.foldl (fun acc2 csv_var =>
        let cvT := (extract_tokens_topn (some csv_var)).toFinset
        if cvT = ∅ then acc2
        else db_expanded.foldl (fun acc3 db_var =>
          let dvT := (extract_tokens_topn (some db_var)).toFinset
          if dvT = ∅ then acc3 else max acc3 (calc_overlap cvT dvT)) acc2) acc ≤ 1 := by
    intro l
    induction l with
    | nil => intro acc h0 h1; exact ⟨h0, h1⟩
    | cons v rest ih =>
      intro acc h0 h1
      simp only [List.foldl_cons]
      split_ifs with hcv
      · exact ih acc h0 h1
      · have inner : ∀ (m : List String) (a : ℚ), 0 ≤ a → a ≤ 1 →
            0 ≤ m.foldl (fun acc3 db_var =>
              let dvT := (extract_tokens_topn (some db_var)).toFinset
              if dvT = ∅ then acc3
              else max acc3 (calc_overlap ((extract_tokens_topn (some v)).toFinset) dvT)) a ∧
            m.foldl (fun acc3 db_var =>
              let dvT := (extract_tokens_topn (some db_var)).toFinset
              if dvT = ∅ then acc3
              else max acc3 (calc_overlap ((extract_tokens_topn (some v)).toFinset) dvT)) a ≤ 1 := by
          intro m
          induction m with
          | nil => intro a ha0 ha1; exact ⟨ha0, ha1⟩
          | cons w wrest wih =>
            intro a ha0 ha1
            simp only [List.foldl_cons]
            split_ifs with hdv
            · exact wih a ha0 ha1
            · exact wih _ (le_max_of_le_left ha0)
                (max_le ha1 (calc_overlap_le_one _ _))
        obtain ⟨i0, i1⟩ := inner db_expanded acc h0 h1
        exact ih _ i0 i1
  exact main csv_expanded 0 (le_refl 0) (by norm_num)

/-! ## Store preservation -/

lemma a1_loop_st_store (csvT : Finset String) (b : Option Nat) (s : ℚ) (p : Nat)
    (store : Store) (cands : List Nat) :
    (a1_loop_st csvT b s p store cands).2 = store := by
  induction cands generalizing b s p with
  | nil => rfl
  | cons i rest ih =>
    simp only [a1_loop_st]
    split_ifs <;> first | rfl | apply ih

lemma a2_loop_st_store (q : Entry) (b : Option Nat) (s : ℚ) (p : Nat)
    (store : Store) (cands : List Nat) :
    (a2_loop_st q b s p store cands).2 = store := by
  induction cands generalizing b s p with
  | nil => rfl
  | cons i rest ih =>
    simp only [a2_loop_st]
    split_ifs <;> apply ih

lemma a3_db_vars_st_store (di : Nat) (cvT : Finset String) (st : A3StI)
    (store : Store) (vars : List String) :
    (a3_db_vars_st di cvT st store vars).2 = store := by
  induction vars generalizing st with
  | nil => rfl
  | cons v rest ih =>
    simp only [a3_db_vars_st]
    split_ifs <;> first | rfl | apply ih

lemma a3_csv_vars_st_store (di : Nat) (db_expanded : List String) (st : A3StI)
    (store : Store) (vars : List String) :
    (a3_csv_vars_st di db_expanded st store vars).2 = store := by
  induction vars generalizing st with
  | nil => rfl
  | cons v rest ih =>
    simp only [a3_csv_vars_st]
    split_ifs with hcv
    · apply ih
    · rcases hdb : a3_db_vars_st di ((extract_tokens_v2 (some v)).toFinset) st store
        db_expanded with ⟨res, store'⟩
      have hst : store' = store := by
        have := a3_db_vars_st_store di ((extract_tokens_v2 (some v)).toFinset) st store
          db_expanded
        rw [hdb] at this
        exact this
      subst hst
      cases res with
      | error e => simp
      | ok st' => exact ih st'

lemma a3_cands_st_store (csv_expanded : List String) (st : A3StI)
    (store : Store) (cands : List Nat) :
    (a3_cands_st csv_expanded st store cands).2 = store := by
  induction cands generalizing st with
  | nil => rfl
  | cons di rest ih =>
    simp only [a3_cands_st]
    rcases hcv : a3_csv_vars_st di (readE store di).expanded st store csv_expanded
      with ⟨res, store'⟩
    have hst : store' = store := by
      have := a3_csv_vars_st_store di (readE store di).expanded st store csv_expanded
      rw [hcv] at this
      exact this
    subst hst
    cases res with
    | error e => simp
    | ok st' => exact ih st'

/-- Evaluation helper: `calc_overlap` on concrete non-empty sets. -/
lemma calc_overlap_eval {s t : Finset String} {a b : Nat}
    (hst : ¬ (s = ∅ ∨ t = ∅)) (hu : ¬ (s ∪ t = ∅))
    (hi : (s ∩ t).card = a) (hcu : (s ∪ t).card = b) :
    calc_overlap s t = (a : ℚ) / (b : ℚ) := by
  rw [calc_overlap, if_neg hst, if_neg hu, hi, hcu]

/-! ## Empty-signal-bundle lemmas (queries with empty/None titles) -/

lemma a3_csv_vars_empty_var (db : Entry) (exp : List String) (st : A3St) :
    a3_csv_vars db exp st [""] = .ok st := by
  simp only [a3_csv_vars]
  rw [if_pos (show (extract_tokens_v2 (some "")).toFinset = ∅ from by decide)]

lemma a3_cands_empty_var (cands : List Entry) (st : A3St) :
    a3_cands [""] st cands = .ok st := by
  induction cands generalizing st with
  | nil => rfl
  | cons e rest ih =>
    simp only [a3_cands]
    rw [a3_csv_vars_empty_var]
    exact ih st

lemma a3topn_best_overlap_empty_var (db_expanded : List String) :
    a3topn_best_overlap [""] db_expanded = 0 := by
  simp only [a3topn_best_overlap, List.foldl_cons, List.foldl_nil]
  rw [if_pos (show (extract_tokens_topn (some "")).toFinset = ∅ from by decide)]

/-! ## Gate lemmas for the top-N scoring bodies -/

lemma a1_topn_score_gate {q e : Entry} {r : Entry × ℚ × String}
    (h : a1_topn_score q e = some r) :
    r = (e, calc_overlap q.tokens e.tokens, "token") ∧
      calc_overlap q.tokens e.tokens > 3/10 := by
  simp only [a1_topn_score] at h
  split_ifs at h with h1 h2
  · cases h
    exact ⟨rfl, h2⟩

lemma a2_topn_score_gate {q e : Entry} {r : Entry × ℚ × String}
    (h : a2_topn_score q e = some r) :
    r = (e, a2_total_topn q e (q.anchors_first ∩ e.anchors_first ≠ ∅)
        (q.anchors_last ∩ e.anchors_last ≠ ∅), "anchor") ∧
      a2_total_topn q e (q.anchors_first ∩ e.anchors_first ≠ ∅)
        (q.anchors_last ∩ e.anchors_last ≠ ∅) > 2/5 ∧
      (q.anchors_first ∩ e.anchors_first ≠ ∅ ∨ q.anchors_last ∩ e.anchors_last ≠ ∅) := by
  simp only [a2_topn_score] at h
  split_ifs at h with h1 h2
  · cases h
    refine ⟨rfl, h2, ?_⟩
    rcases not_and_or.mp h1 with hf | hl
    · exact Or.inl (not_not.mp hf)
    · exact Or.inr (not_not.mp hl)

lemma a3_topn_score_gate {q e : Entry} {r : Entry × ℚ × String}
    (h : a3_topn_score q e = some r) :
    r = (e, a3topn_best_overlap q.expanded e.expanded, "expand") ∧
      a3topn_best_overlap q.expanded e.expanded > 1/2 := by
  simp only [a3_topn_score] at h
  split_ifs at h with h1
  · cases h
    exact ⟨rfl, h1⟩

/-! ## Claim theorems -/

/-- C1, counterexample: the claim "every score lies in [0,1]; in particular
the Approach 2 composite never exceeds 1" is false — scoring the entry
`"ab cd"` against itself, Approach 2 returns the composite
`0.4 + 0.2 + 0.3·1 + 0.2·1 + 0.1·1 = 1.2 > 1`. -/
theorem approach2_score_exceeds_one_cex :
    ¬ ((approach_2_anchor_score entry_ab_cd [entry_ab_cd]).2.2 ≤ 1) := by
  have hov : calc_overlap entry_ab_cd.tokens entry_ab_cd.tokens = 1 := by
    rw [calc_overlap_eval (by decide) (by decide)
      (show (entry_ab_cd.tokens ∩ entry_ab_cd.tokens).card = 2 by decide)
      (show (entry_ab_cd.tokens ∪ entry_ab_cd.tokens).card = 2 by decide)]
    norm_num
  have hng : calc_overlap entry_ab_cd.threeGrams entry_ab_cd.threeGrams = 1 := by
    rw [calc_overlap_eval (by decide) (by decide)
      (show (entry_ab_cd.threeGrams ∩ entry_ab_cd.threeGrams).card = 2 by decide)
      (show (entry_ab_cd.threeGrams ∪ entry_ab_cd.threeGrams).card = 2 by decide)]
    norm_num
  have hlen : pyLenFrac entry_ab_cd.title entry_ab_cd.title = 1 := by
    rw [pyLenFrac, if_neg (by decide),
      show (entry_ab_cd.title.getD "").length = 5 by decide]
    norm_num
  have hfm : entry_ab_cd.anchors_first ∩ entry_ab_cd.anchors_first ≠ ∅ := by decide
  have hlm : entry_ab_cd.anchors_last ∩ entry_ab_cd.anchors_last ≠ ∅ := by decide
  have hae : ¬ (entry_ab_cd.anchors_first = ∅ ∧ entry_ab_cd.anchors_last = ∅) := by decide
  have htot : a2_total_v2 entry_ab_cd entry_ab_cd
      (entry_ab_cd.anchors_first ∩ entry_ab_cd.anchors_first ≠ ∅)
      (entry_ab_cd.anchors_last ∩ entry_ab_cd.anchors_last ≠ ∅) = 6/5 := by
    rw [a2_total_v2, hov, hng, hlen, if_pos hfm, if_pos hlm]
    norm_num
  simp only [approach_2_anchor_score, a2_loop, htot]
  norm_num [hae, hfm, hlm]

/-- C1, amended: every score returned by Approach 1 and Approach 3 (either
mode) lies in [0,1]; the Approach 2 composite (either weight profile) lies in
[0, 1.2] — both profiles' weights sum to 1.2, not 1. -/
theorem scores_bounded (q : Entry) (cands : List Entry) (n : Nat) :
    (0 ≤ (approach_1_token q cands).2.2 ∧ (approach_1_token q cands).2.2 ≤ 1) ∧
      (0 ≤ (approach_3_expanded q cands).2.2 ∧ (approach_3_expanded q cands).2.2 ≤ 1) ∧
      (0 ≤ (approach_2_anchor_score q cands).2.2 ∧
        (approach_2_anchor_score q cands).2.2 ≤ 6/5) ∧
      (∀ r ∈ approach_1_token_topn q cands n, 0 ≤ r.2.1 ∧ r.2.1 ≤ 1) ∧
      (∀ r ∈ approach_3_expand_topn q cands n, 0 ≤ r.2.1 ∧ r.2.1 ≤ 1) ∧
      (∀ r ∈ approach_2_anchor_topn q cands n, 0 ≤ r.2.1 ∧ r.2.1 ≤ 6/5) := by
  refine ⟨?_, ?_, ?_, ?_, ?_, ?_⟩
  · rw [approach_1_token]
    split_ifs with h
    · norm_num
    · exact a1_loop_score_range q.tokens cands none 0 0 (le_refl 0) (by norm_num)
  · rw [approach_3_expanded]
    cases hc : a3_cands q.expanded (none, 0, 0) cands with
    | error e => norm_num
    | ok st =>
      obtain ⟨b, s, p⟩ := st
      have hinv := a3_cands_inv q.expanded cands (none, 0, 0)
        ⟨le_refl 0, by norm_num, by simp⟩ (b, s, p) hc
      exact ⟨hinv.1, hinv.2.1⟩
  · rw [approach_2_anchor_score]
    split_ifs with h
    · norm_num
    · exact a2_loop_score_range q cands none 0 0 (le_refl 0) (by norm_num)
  · intro r hr
    rw [approach_1_token_topn] at hr
    split_ifs at hr with h
    · exact absurd hr (List.not_mem_nil r)
    · obtain ⟨e, he, hfe⟩ := List.mem_filterMap.mp (mem_of_mem_topn hr)
      obtain ⟨hre, hgt⟩ := a1_topn_score_gate hfe
      rw [hre]
      exact ⟨calc_overlap_nonneg _ _, calc_overlap_le_one _ _⟩
  · intro r hr
    rw [approach_3_expand_topn] at hr
    obtain ⟨e, he, hfe⟩ := List.mem_filterMap.mp (mem_of_mem_topn hr)
    obtain ⟨hre, hgt⟩ := a3_topn_score_gate hfe
    rw [hre]
    exact a3topn_best_overlap_range q.expanded e.expanded
  · intro r hr
    rw [approach_2_anchor_topn] at hr
    obtain ⟨e, he, hfe⟩ := List.mem_filterMap.mp (mem_of_mem_topn hr)
    obtain ⟨hre, hgt, hor⟩ := a2_topn_score_gate hfe
    rw [hre]
    exact ⟨a2_total_topn_nonneg _ _ _ _, a2_total_topn_le _ _ _ _⟩

/-- C1, witness for the amended bound at a concrete input. -/
theorem scores_bounded_witness :
    0 ≤ (approach_2_anchor_score entry_ab_cd [entry_ab_cd]).2.2 ∧
      (approach_2_anchor_score entry_ab_cd [entry_ab_cd]).2.2 ≤ 6/5 :=
  (scores_bounded entry_ab_cd [entry_ab_cd] 5).2.2.1

/-- C2, counterexample: the claim "the tracked best is replaced only by a
strictly better tier; same-or-worse never replaces" is false — against the
query `"aa bb cc"`, candidate `"aa bb cc dd"` (overlap 3/4) is recorded at
tier 3, and the later, strictly worse candidate `"aa bb"` (overlap 2/3, a
tier-4 threshold) still replaces it, so the loop returns the second
candidate at pass 4. -/
theorem approach1_tier_displacement_cex :
    approach_1_token q_aabbcc [cand_abcd, cand_aabb] = (some cand_aabb, 4, 2/3) ∧
      cand_abcd ≠ cand_aabb := by
  have h1 : calc_overlap q_aabbcc.tokens cand_abcd.tokens = 3/4 := by
    rw [calc_overlap_eval (by decide) (by decide)
      (show (q_aabbcc.tokens ∩ cand_abcd.tokens).card = 3 by decide)
      (show (q_aabbcc.tokens ∪ cand_abcd.tokens).card = 4 by decide)]
    norm_num
  have h2 : calc_overlap q_aabbcc.tokens cand_aabb.tokens = 2/3 := by
    rw [calc_overlap_eval (by decide) (by decide)
      (show (q_aabbcc.tokens ∩ cand_aabb.tokens).card = 2 by decide)
      (show (q_aabbcc.tokens ∪ cand_aabb.tokens).card = 3 by decide)]
    norm_num
  have hq : ¬ (q_aabbcc.tokens = ∅) := by decide
  have hA : ¬ (cand_abcd.tokens = ∅) := by decide
  have hB : ¬ (cand_aabb.tokens = ∅) := by decide
  refine ⟨?_, by decide⟩
  simp only [approach_1_token, a1_loop, h1, h2]
  norm_num [hq, hA, hB]

/-- C2, amended: the tracked best follows the first satisfied branch of the
ordered `elif` chain, so a later candidate can displace a better-tier best at
a worse recorded tier (see the counterexample); once the tracked best
reaches tier 4, no branch can fire any more and it is never displaced —
except by an exact token-set match, which short-circuits with pass 1 and
score 1. -/
theorem a1_tier4_best_never_displaced (csvT : Finset String) (b : Option Entry)
    (s : ℚ) (cands : List Entry) :
    a1_loop csvT b s 4 cands = (b, 4, s) ∨
      ∃ e ∈ cands, csvT = e.tokens ∧ a1_loop csvT b s 4 cands = (some e, 1, 1) :=
  a1_loop_pass4_stable csvT cands b s

/-- C3, counterexample: the claim "a subset/superset variant pairing is
promoted to tier 2 whenever no tier better than 2 was found — even if a
worse tier (3 or 4) was already recorded" is false — against the query
`"aa bb cc dd ee ff gg"`, candidate `"aa bb cc dd ee ff xx"` is recorded at
tier 3 (overlap 3/4, no subset relation), and the later candidate
`"aa bb"`, whose token set is a proper subset of the query's, is **not**
promoted to tier 2: the guard `best_pass < 2` fails, and the first candidate
is returned at pass 3. -/
theorem approach3_no_tier2_promotion_cex :
    approach_3_expanded q_seven [cand_sevenx, cand_aabb] = (some cand_sevenx, 3, 3/4) ∧
      cand_aabb.tokens ⊂ q_seven.tokens ∧ cand_aabb ≠ cand_sevenx := by
  have hqe : q_seven.expanded = ["aa bb cc dd ee ff gg"] := by decide
  have hCe : cand_sevenx.expanded = ["aa bb cc dd ee ff xx"] := by decide
  have hBe : cand_aabb.expanded = ["aa bb"] := by decide
  have hovC : calc_overlap ((extract_tokens_v2 (some "aa bb cc dd ee ff gg")).toFinset)
      ((extract_tokens_v2 (some "aa bb cc dd ee ff xx")).toFinset) = 3/4 := by
    rw [calc_overlap_eval (by decide) (by decide)
      (show _ = 6 by decide) (show _ = 8 by decide)]
    norm_num
  have hovB : calc_overlap ((extract_tokens_v2 (some "aa bb cc dd ee ff gg")).toFinset)
      ((extract_tokens_v2 (some "aa bb")).toFinset) = 2/7 := by
    rw [calc_overlap_eval (by decide) (by decide)
      (show _ = 2 by decide) (show _ = 7 by decide)]
    norm_num
  have hq : ¬ ((extract_tokens_v2 (some "aa bb cc dd ee ff gg")).toFinset = ∅) := by decide
  have hC : ¬ ((extract_tokens_v2 (some "aa bb cc dd ee ff xx")).toFinset = ∅) := by decide
  have hB : ¬ ((extract_tokens_v2 (some "aa bb")).toFinset = ∅) := by decide
  have hneC : ¬ ((extract_tokens_v2 (some "aa bb cc dd ee ff gg")).toFinset =
      (extract_tokens_v2 (some "aa bb cc dd ee ff xx")).toFinset) := by decide
  have hneB : ¬ ((extract_tokens_v2 (some "aa bb cc dd ee ff gg")).toFinset =
      (extract_tokens_v2 (some "aa bb")).toFinset) := by decide
  have hnsub : ¬ ((extract_tokens_v2 (some "aa bb cc dd ee ff gg")).toFinset ⊆
        (extract_tokens_v2 (some "aa bb cc dd ee ff xx")).toFinset ∨
      (extract_tokens_v2 (some "aa bb cc dd ee ff xx")).toFinset ⊆
        (extract_tokens_v2 (some "aa bb cc dd ee ff gg")).toFinset) := by decide
  refine ⟨?_, by decide, by decide⟩
  simp only [approach_3_expanded, a3_cands, a3_csv_vars, a3_db_vars, a3_pair_step,
    hqe, hCe, hBe, hovC, hovB]
  norm_num [hq, hC, hB, hneC, hneB, hnsub]

/-- C3, amended: the subset/superset promotion fires only while no tier at
all has been recorded (`best_pass < 2`), and the overlap-threshold branches
of the very same pairing immediately re-record a subset pair with Jaccard
≥ 0.5 at tier 3 or 4 — so whenever Approach 3 returns pass 2, the returned
score is below 1/2. -/
theorem a3_pass2_score_lt_half (q : Entry) (cands : List Entry)
    (b : Option Entry) (s : ℚ)
    (h : approach_3_expanded q cands = (b, 2, s)) : s < 1/2 := by
  rw [approach_3_expanded] at h
  cases hc : a3_cands q.expanded (none, 0, 0) cands with
  | error e =>
    rw [hc] at h
    simp only [Prod.mk.injEq] at h
    exact absurd h.2.1 (by norm_num)
  | ok st =>
    obtain ⟨b', s', p'⟩ := st
    rw [hc] at h
    simp only [Prod.mk.injEq] at h
    obtain ⟨-, hp, hs⟩ := h
    have hinv := a3_cands_inv q.expanded cands (none, 0, 0)
      ⟨le_refl 0, by norm_num, by simp⟩ (b', s', p') hc
    rw [← hs]
    exact hinv.2.2 hp

/-- C3, witness: a lone proper-subset candidate (`"aa bb"` against
`"aa bb cc dd ee"`, Jaccard 2/5) does survive at pass 2, and the amended
bound applies to it. -/
theorem a3_pass2_score_lt_half_witness :
    approach_3_expanded q_five [cand_aabb] = (some cand_aabb, 2, 2/5) ∧
      (2:ℚ)/5 < 1/2 := by
  have hqe : q_five.expanded = ["aa bb cc dd ee"] := by decide
  have hBe : cand_aabb.expanded = ["aa bb"] := by decide
  have hov : calc_overlap ((extract_tokens_v2 (some "aa bb cc dd ee")).toFinset)
      ((extract_tokens_v2 (some "aa bb")).toFinset) = 2/5 := by
    rw [calc_overlap_eval (by decide) (by decide)
      (show _ = 2 by decide) (show _ = 5 by decide)]
    norm_num
  have hq : ¬ ((extract_tokens_v2 (some "aa bb cc dd ee")).toFinset = ∅) := by decide
  have hB : ¬ ((extract_tokens_v2 (some "aa bb")).toFinset = ∅) := by decide
  have hne : ¬ ((extract_tokens_v2 (some "aa bb cc dd ee")).toFinset =
      (extract_tokens_v2 (some "aa bb")).toFinset) := by decide
  have hsub : (extract_tokens_v2 (some "aa bb")).toFinset ⊆
      (extract_tokens_v2 (some "aa bb cc dd ee")).toFinset := by decide
  have heval : approach_3_expanded q_five [cand_aabb] = (some cand_aabb, 2, 2/5) := by
    simp only [approach_3_expanded, a3_cands, a3_csv_vars, a3_db_vars, a3_pair_step,
      hqe, hBe, hov]
    norm_num [hq, hB, hne, hsub]
  exact ⟨heval, a3_pass2_score_lt_half q_five [cand_aabb] (some cand_aabb) (2/5) heval⟩

/-- C4, counterexample: the claim "the no-anchor fallback is a prefix of at
most 100 entries, never the whole catalog" is false for the v2 pipeline —
with a 101-entry catalog, `matching_strategy_v2.py`'s `main` falls back to
the entire `db_entries` list. -/
theorem v2_fallback_whole_catalog_cex :
    select_candidates_v2 ∅ (fun _ => []) (List.range 101) = List.range 101 ∧
      ¬ ((select_candidates_v2 ∅ (fun _ => []) (List.range 101)).length ≤ MAX_CANDIDATES) := by
  constructor
  · simp [select_candidates_v2]
  · norm_num [select_candidates_v2, MAX_CANDIDATES]

/-- C4, amended: for a query with no first anchors, the top-N pipeline falls
back to `db_entries[:MAX_CANDIDATES]` (at most 100 entries), but the v2
pipeline falls back to the whole catalog list. -/
theorem fallback_selection (first : Finset String) (anchor_index : String → List Nat)
    (db_entries : List Nat) (h : first = ∅) :
    select_candidates_topn first anchor_index db_entries = db_entries.take MAX_CANDIDATES ∧
      select_candidates_v2 first anchor_index db_entries = db_entries := by
  subst h
  constructor <;> simp [select_candidates_topn, select_candidates_v2]

/-- C4, witness for the amended fallback behaviour at a concrete input. -/
theorem fallback_selection_witness :
    select_candidates_topn ∅ (fun _ => []) (List.range 101) =
        (List.range 101).take MAX_CANDIDATES ∧
      select_candidates_v2 ∅ (fun _ => []) (List.range 101) = List.range 101 :=
  fallback_selection ∅ (fun _ => []) (List.range 101) rfl

/-- C5: a candidate whose first- and last-anchor sets are both disjoint from
the query's is never returned by Approach 2, in best-single-match or top-N
mode — the anchor check is a hard gate. -/
theorem a2_anchor_hard_gate (q c : Entry) (cands : List Entry) (n : Nat)
    (h1 : q.anchors_first ∩ c.anchors_first = ∅)
    (h2 : q.anchors_last ∩ c.anchors_last = ∅) :
    (approach_2_anchor_score q cands).1 ≠ some c ∧
      ∀ s m, (c, s, m) ∉ approach_2_anchor_topn q cands n := by
  constructor
  · intro hc
    rw [approach_2_anchor_score] at hc
    split_ifs at hc with hg
    rcases a2_loop_best_spec q cands none 0 0 with hb | ⟨e, he, hee, hor⟩
    · rw [hb] at hc
      exact Option.noConfusion hc
    · rw [hee] at hc
      have hec : e = c := Option.some.inj hc
      subst hec
      rcases hor with hf | hl
      · exact hf h1
      · exact hl h2
  · intro s m hm
    rw [approach_2_anchor_topn] at hm
    obtain ⟨e, he, hfe⟩ := List.mem_filterMap.mp (mem_of_mem_topn hm)
    obtain ⟨hre, -, hor⟩ := a2_topn_score_gate hfe
    have hce : c = e := congrArg Prod.fst hre
    rw [← hce] at hor
    rcases hor with hf | hl
    · exact hf h1
    · exact hl h2

/-- C5, witness: the anchor-disjoint candidate `"xy zw"` is never returned
for the query `"ab cd"`. -/
theorem a2_anchor_hard_gate_witness :
    (approach_2_anchor_score entry_ab_cd [entry_xy_zw]).1 ≠ some entry_xy_zw ∧
      ∀ s m, (entry_xy_zw, s, m) ∉ approach_2_anchor_topn entry_ab_cd [entry_xy_zw] 5 :=
  a2_anchor_hard_gate entry_ab_cd entry_xy_zw [entry_xy_zw] 5 (by decide) (by decide)

/-- C6: `expand_title` applies its strip rules sequentially to one working
copy (that is how `strip_markers` is defined), always returns the original
title first, returns exactly one or two variants, and appends the second
variant iff the fully stripped result differs from the original and has
length greater than 3. -/
theorem expand_title_structure (t : String) :
    (expand_title t).head? = some t ∧
      ((expand_title t).length = 1 ∨ (expand_title t).length = 2) ∧
      ((expand_title t).length = 2 ↔
        strip_markers t ≠ t ∧ (strip_markers t).length > 3) := by
  simp only [expand_title]
  split_ifs with h0 hc
  · subst h0
    refine ⟨rfl, Or.inl rfl, ?_⟩
    simp [show strip_markers "" = "" from by decide]
  · exact ⟨rfl, Or.inr rfl, ⟨fun _ => ⟨hc.2.1, hc.2.2⟩, fun _ => rfl⟩⟩
  · refine ⟨rfl, Or.inl rfl, ?_⟩
    constructor
    · intro h
      simp at h
    · rintro ⟨hne, hlen⟩
      exact absurd ⟨fun he => by simp [he] at hlen, hne, hlen⟩ hc

/-- C7: a query whose title is empty or `None`/non-string (hence whose
signal fields are the `entry.get` defaults) gets a no-match result from all
three approaches in both modes, with no possibility of an exception (the
embedded functions are total). -/
theorem empty_title_no_match (t : Option String) (h : t = none ∨ t = some "")
    (cands : List Entry) (n : Nat) :
    approach_1_token (unprecomputed_query t) cands = (none, 0, 0) ∧
      approach_2_anchor_score (unprecomputed_query t) cands = (none, 0, 0) ∧
      approach_3_expanded (unprecomputed_query t) cands = (none, 0, 0) ∧
      approach_1_token_topn (unprecomputed_query t) cands n = [] ∧
      approach_2_anchor_topn (unprecomputed_query t) cands n = [] ∧
      approach_3_expand_topn (unprecomputed_query t) cands n = [] := by
  have hexp : (unprecomputed_query t).expanded = [""] := by
    rcases h with rfl | rfl <;> rfl
  refine ⟨?_, ?_, ?_, ?_, ?_, ?_⟩
  · rw [approach_1_token,
      if_pos (show (unprecomputed_query t).tokens = ∅ from rfl)]
  · rw [approach_2_anchor_score,
      if_pos (show (unprecomputed_query t).anchors_first = ∅ ∧
        (unprecomputed_query t).anchors_last = ∅ from ⟨rfl, rfl⟩)]
  · rw [approach_3_expanded, hexp, a3_cands_empty_var]
  · rw [approach_1_token_topn,
      if_pos (show (unprecomputed_query t).tokens = ∅ from rfl)]
  · rw [approach_2_anchor_topn,
      show cands.filterMap (a2_topn_score (unprecomputed_query t)) = [] from
        List.filterMap_eq_nil_iff.mpr fun e he => by
          simp [a2_topn_score, unprecomputed_query]]
    simp [sort_scored]
  · rw [approach_3_expand_topn,
      show cands.filterMap (a3_topn_score (unprecomputed_query t)) = [] from
        List.filterMap_eq_nil_iff.mpr fun e he => by
          simp [a3_topn_score, hexp, a3topn_best_overlap_empty_var]]
    simp [sort_scored]

/-- C7, witness: the empty-title query against a real candidate pool. -/
theorem empty_title_no_match_witness :
    approach_1_token (unprecomputed_query (some "")) [entry_ab_cd] = (none, 0, 0) ∧
      approach_2_anchor_score (unprecomputed_query (some "")) [entry_ab_cd] = (none, 0, 0) ∧
      approach_3_expanded (unprecomputed_query (some "")) [entry_ab_cd] = (none, 0, 0) ∧
      approach_1_token_topn (unprecomputed_query (some "")) [entry_ab_cd] 5 = [] ∧
      approach_2_anchor_topn (unprecomputed_query (some "")) [entry_ab_cd] 5 = [] ∧
      approach_3_expand_topn (unprecomputed_query (some "")) [entry_ab_cd] 5 = [] :=
  empty_title_no_match (some "") (Or.inr rfl) [entry_ab_cd] 5

/-- C8: each top-N mode returns at most `n` results, every returned score
strictly exceeds the approach's minimum gate (0.3 token / 0.4 anchor /
0.5 expanded), and the returned list is sorted in non-increasing score
order. -/
theorem topn_bounded_gated_sorted (q : Entry) (cands : List Entry) (n : Nat) :
    ((approach_1_token_topn q cands n).length ≤ n ∧
        (∀ r ∈ approach_1_token_topn q cands n, 3/10 < r.2.1) ∧
        (approach_1_token_topn q cands n).Pairwise (fun a b => b.2.1 ≤ a.2.1)) ∧
      ((approach_2_anchor_topn q cands n).length ≤ n ∧
        (∀ r ∈ approach_2_anchor_topn q cands n, 2/5 < r.2.1) ∧
        (approach_2_anchor_topn q cands n).Pairwise (fun a b => b.2.1 ≤ a.2.1)) ∧
      ((approach_3_expand_topn q cands n).length ≤ n ∧
        (∀ r ∈ approach_3_expand_topn q cands n, 1/2 < r.2.1) ∧
        (approach_3_expand_topn q cands n).Pairwise (fun a b => b.2.1 ≤ a.2.1)) := by
  refine ⟨⟨?_, ?_, ?_⟩, ⟨?_, ?_, ?_⟩, ⟨?_, ?_, ?_⟩⟩
  · rw [approach_1_token_topn]
    split_ifs with h
    · simp
    · exact topn_length_le _ _
  · intro r hr
    rw [approach_1_token_topn] at hr
    split_ifs at hr with h
    · exact absurd hr (List.not_mem_nil r)
    · obtain ⟨e, he, hfe⟩ := List.mem_filterMap.mp (mem_of_mem_topn hr)
      obtain ⟨hre, hgt⟩ := a1_topn_score_gate hfe
      rw [hre]
      exact hgt
  · rw [approach_1_token_topn]
    split_ifs with h
    · simp
    · exact topn_sorted _ _
  · rw [approach_2_anchor_topn]
    exact topn_length_le _ _
  · intro r hr
    rw [approach_2_anchor_topn] at hr
    obtain ⟨e, he, hfe⟩ := List.mem_filterMap.mp (mem_of_mem_topn hr)
    obtain ⟨hre, hgt, -⟩ := a2_topn_score_gate hfe
    rw [hre]
    exact hgt
  · rw [approach_2_anchor_topn]
    exact topn_sorted _ _
  · rw [approach_3_expand_topn]
    exact topn_length_le _ _
  · intro r hr
    rw [approach_3_expand_topn] at hr
    obtain ⟨e, he, hfe⟩ := List.mem_filterMap.mp (mem_of_mem_topn hr)
    obtain ⟨hre, hgt⟩ := a3_topn_score_gate hfe
    rw [hre]
    exact hgt
  · rw [approach_3_expand_topn]
    exact topn_sorted _ _

/-- C8, witness: the cardinality bounds at a concrete input. -/
theorem topn_bounded_gated_sorted_witness :
    (approach_1_token_topn entry_ab_cd [entry_ab_cd] 5).length ≤ 5 ∧
      (approach_2_anchor_topn entry_ab_cd [entry_ab_cd] 5).length ≤ 5 ∧
      (approach_3_expand_topn entry_ab_cd [entry_ab_cd] 5).length ≤ 5 :=
  ⟨(topn_bounded_gated_sorted entry_ab_cd [entry_ab_cd] 5).1.1,
    (topn_bounded_gated_sorted entry_ab_cd [entry_ab_cd] 5).2.1.1,
    (topn_bounded_gated_sorted entry_ab_cd [entry_ab_cd] 5).2.2.1⟩

/-- C9: the three scoring approaches only read the entry store — with every
read explicit and the store threaded through every statement of the loop
bodies, each approach returns the store unchanged, for any query reference,
candidate references and store contents. -/
theorem approaches_preserve_store (qi : Nat) (cands : List Nat) (store : Store) :
    (approach_1_token_st qi cands store).2 = store ∧
      (approach_2_anchor_score_st qi cands store).2 = store ∧
      (approach_3_expanded_st qi cands store).2 = store := by
  refine ⟨?_, ?_, ?_⟩
  · rw [approach_1_token_st]
    split_ifs with h
    · rfl
    · exact a1_loop_st_store _ _ _ _ _ _
  · rw [approach_2_anchor_score_st]
    split_ifs with h
    · rfl
    · exact a2_loop_st_store _ _ _ _ _ _
  · rw [approach_3_expanded_st]
    rcases hc : a3_cands_st (readE store qi).expanded (none, 0, 0) store cands
      with ⟨res, store'⟩
    have hst : store' = store := by
      have := a3_cands_st_store (readE store qi).expanded (none, 0, 0) store cands
      rw [hc] at this
      exact this
    subst hst
    cases res with
    | error e => simp [hc]
    | ok st =>
      obtain ⟨b, s, p⟩ := st
      simp [hc]

/-- C10: the whole scoring pipeline is embedded as pure functions — no
randomness, clock, or hidden iteration-order dependence — so equal inputs
(equal titles, equal signal bundles, equal candidate pools in the same
order, equal `n`) give equal outputs at every stage. -/
theorem pipeline_deterministic (t₁ t₂ : Option String) (u₁ u₂ : String)
    (q₁ q₂ : Entry) (c₁ c₂ : List Entry) (n₁ n₂ : Nat)
    (ht : t₁ = t₂) (hu : u₁ = u₂) (hq : q₁ = q₂) (hc : c₁ = c₂) (hn : n₁ = n₂) :
    safe_normalize t₁ = safe_normalize t₂ ∧
      extract_tokens_v2 t₁ = extract_tokens_v2 t₂ ∧
      extract_tokens_topn t₁ = extract_tokens_topn t₂ ∧
      get_anchors common_words_v2 t₁ = get_anchors common_words_v2 t₂ ∧
      ngrams_safe t₁ 3 = ngrams_safe t₂ 3 ∧
      expand_title u₁ = expand_title u₂ ∧
      approach_1_token q₁ c₁ = approach_1_token q₂ c₂ ∧
      approach_2_anchor_score q₁ c₁ = approach_2_anchor_score q₂ c₂ ∧
      approach_3_expanded q₁ c₁ = approach_3_expanded q₂ c₂ ∧
      approach_1_token_topn q₁ c₁ n₁ = approach_1_token_topn q₂ c₂ n₂ ∧
      approach_2_anchor_topn q₁ c₁ n₁ = approach_2_anchor_topn q₂ c₂ n₂ ∧
      approach_3_expand_topn q₁ c₁ n₁ = approach_3_expand_topn q₂ c₂ n₂ := by
  subst ht hu hq hc hn
  exact ⟨rfl, rfl, rfl, rfl, rfl, rfl, rfl, rfl, rfl, rfl, rfl, rfl⟩

/-- C10, witness: determinism instantiated at a concrete input. -/
theorem pipeline_deterministic_witness :
    safe_normalize (some "ab cd") = safe_normalize (some "ab cd") ∧
      extract_tokens_v2 (some "ab cd") = extract_tokens_v2 (some "ab cd") ∧
      extract_tokens_topn (some "ab cd") = extract_tokens_topn (some "ab cd") ∧
      get_anchors common_words_v2 (some "ab cd") =
        get_anchors common_words_v2 (some "ab cd") ∧
      ngrams_safe (some "ab cd") 3 = ngrams_safe (some "ab cd") 3 ∧
      expand_title "ab cd" = expand_title "ab cd" ∧
      approach_1_token entry_ab_cd [entry_ab_cd] =
        approach_1_token entry_ab_cd [entry_ab_cd] ∧
      approach_2_anchor_score entry_ab_cd [entry_ab_cd] =
        approach_2_anchor_score entry_ab_cd [entry_ab_cd] ∧
      approach_3_expanded entry_ab_cd [entry_ab_cd] =
        approach_3_expanded entry_ab_cd [entry_ab_cd] ∧
      approach_1_token_topn entry_ab_cd [entry_ab_cd] 5 =
        approach_1_token_topn entry_ab_cd [entry_ab_cd] 5 ∧
      approach_2_anchor_topn entry_ab_cd [entry_ab_cd] 5 =
        approach_2_anchor_topn entry_ab_cd [entry_ab_cd] 5 ∧
      approach_3_expand_topn entry_ab_cd [entry_ab_cd] 5 =
        approach_3_expand_topn entry_ab_cd [entry_ab_cd] 5 :=
  pipeline_deterministic (some "ab cd") (some "ab cd") "ab cd" "ab cd"
    entry_ab_cd entry_ab_cd [entry_ab_cd] [entry_ab_cd] 5 5 rfl rfl rfl rfl rfl

end AnimePais
